import Mathlib

/-!
Verification of the Watchly recommendation pipeline.

This file gives a shallow embedding of the core recommendation pipeline of
the repository (`app/services/recommendation_service.py`, together with the
catalog-updater lifecycle in `app/services/catalog_updater.py` and the
memoizing cache wrapping the TMDB lookups in `app/services/tmdb_service.py`),
and proves properties of it.

Network responses (the Stremio library, the per-seed TMDB recommendation
fetches and the TMDB detail lookups) are modelled as oracle parameters: a
run of the pipeline is determined by the library contents and by what the
upstream service would answer for each query.  Python floats carried in the
JSON payloads (`vote_average`, the derived `_score`) are modelled as
rationals; dictionaries used as insertion-ordered maps are modelled as
association lists kept in insertion order, and Python `set`s are modelled as
lists queried only through membership.
-/

/-- A raw TMDB recommendation item as consumed by the aggregation loop
(`recommendation_service.py`, steps 6-7).  Only its `id` field is read
(`item.get("id")`); a missing key is `none`.  TMDB ids are JSON integers. -/
structure RecItem where
  id : Option Int
deriving DecidableEq

/-- The slice of a TMDB detail response (`get_movie_details` /
`get_tv_details`) read by `_fetch_metadata_for_items`
(`recommendation_service.py` lines 83-127): the numeric `id`, the
`external_ids.imdb_id` value, the `title` and `name` fields and
`vote_average`.  A `none` models an absent key; an empty string models a
present-but-falsy value.  `vote_average = none` models an absent or
non-numeric value, for which the downstream `float(...)` conversion falls
back to a score of `0.0`. -/
structure Details where
  id : Int
  imdb_id : Option String
  title : Option String
  name : Option String
  vote_average : Option ℚ
deriving DecidableEq

/-- The slice of the Stremio meta object built by `_fetch_metadata_for_items`
(lines 107-117) that the aggregation and scoring logic reads back:
`meta["id"]` (the canonical id: IMDB id preferred, else `"tmdb:<n>"`),
`meta["type"]`, `meta["name"]` and `meta["imdbRating"]`.  The rating is
stored in the Python as `str(details.get("vote_average", ""))` and read back
through `float(...)`: a numeric value round-trips and an absent value raises
and is treated as `0.0`, so we carry it as `Option ℚ`. -/
structure Meta where
  id : String
  type : String
  name : String
  rating : Option ℚ
deriving DecidableEq

/-- A hydrated entry together with its accumulated `_score`
(`meta_data["_score"]` in `get_recommendations`, lines 324-339). -/
structure Scored where
  meta : Meta
  score : ℚ
deriving DecidableEq

/-- A Stremio library item as read by `get_recommendations`: `_id` (the
opaque identifier string), `type` (`"movie"` or `"series"`) and `_mtime`
(modification timestamp; `item.get("_mtime", "")` defaults an absent key to
`""`, which we fold into the field). -/
structure LibraryItem where
  _id : String
  type : String
  _mtime : String
deriving DecidableEq

/-- The whitespace characters stripped by Python's `str.strip()` (ASCII
subset; the identifier strings contain no exotic unicode whitespace). -/
def isSpaceChar (c : Char) : Bool :=
  c == ' ' || c == '\t' || c == '\n' || c == '\r' || c == '\x0b' || c == '\x0c'

/-- Python `str.strip()`. -/
def pyStrip (s : String) : String :=
  ⟨((s.data.dropWhile isSpaceChar).reverse.dropWhile isSpaceChar).reverse⟩

/-- Python `str.startswith(pre)`. -/
def pyStartsWith (s pre : String) : Bool := pre.data.isPrefixOf s.data

/-- Value of a non-empty all-digit character run, the core of Python
`int(...)`. -/
def digitsVal : List Char → Nat → Option Nat
  | [], acc => some acc
  | c :: rest, acc => if c.isDigit then digitsVal rest (acc * 10 + (c.toNat - 48)) else none

/-- `digitsVal` on a run that must be non-empty. -/
def pyNat? : List Char → Option Nat
  | [] => none
  | l => digitsVal l 0

/-- Python `str.split(",")` (the receiver is non-empty whenever called:
`_parse_identifier` returns early on the empty string). -/
def pySplitComma (s : String) : List String :=
  go s.data []
where
  go : List Char → List Char → List String
    | [], cur => [⟨cur.reverse⟩]
    | c :: rest, cur => if c == ',' then ⟨cur.reverse⟩ :: go rest [] else go rest (c :: cur)

/-- Python `int(s)` as used on identifier tokens: surrounding whitespace is
stripped, an optional sign is accepted, and anything that is not a
non-empty digit string after the sign fails with `ValueError` (`none`).
(Python's underscore digit separators are not modelled; no identifier uses
them.) -/
def pyInt? (s : String) : Option Int :=
  match (pyStrip s).data with
  | '+' :: rest => (pyNat? rest).map Int.ofNat
  | '-' :: rest => (pyNat? rest).map (fun n => -(n : Int))
  | l => (pyNat? l).map Int.ofNat

/-- Python truthiness of an optional string: a present, non-empty string. -/
def truthyStr : Option String → Option String
  | some s => if s = "" then none else some s
  | none => none

/-- The token loop of `_parse_identifier` (`recommendation_service.py`
lines 19-31).  Tokens are processed in order: a stripped empty token is
skipped (`continue`); a token starting with `"tt"` fills the IMDB slot if
still empty; otherwise a token starting with `"tmdb:"` fills the TMDB slot
if still empty, via `int(token.split(":", 1)[1])` (for a token with that
prefix the first colon is at index 4, so the argument is the token without
its first five characters), a failed conversion being a `continue`.  After
a processed token the loop breaks once the IMDB slot is truthy and the TMDB
slot is not `None`. -/
def parseTokens : List String → Option String → Option Int → Option String × Option Int
  | [], i, t => (i, t)
  | tok :: rest, i, t =>
    let tk := pyStrip tok
    if tk = "" then parseTokens rest i t
    else if pyStartsWith tk "tt" ∧ i = none then
      if t.isSome then (some tk, t) else parseTokens rest (some tk) t
    else if pyStartsWith tk "tmdb:" ∧ t = none then
      match pyInt? (tk.drop 5) with
      | some n => if (truthyStr i).isSome then (i, some n) else parseTokens rest i (some n)
      | none => parseTokens rest i t
    else
      if (truthyStr i).isSome ∧ t.isSome then (i, t) else parseTokens rest i t

/-- `_parse_identifier` (`recommendation_service.py` lines 10-33).  The
Python first applies `urllib.parse.unquote`; we model the function on the
decoded string (every identifier appearing in the claims contains no
percent-escape and is a fixed point of `unquote`).  An empty identifier
short-circuits to `(None, None)`; otherwise the comma-separated tokens are
scanned by `parseTokens`. -/
def _parse_identifier (identifier : String) : Option String × Option Int :=
  if identifier = "" then (none, none)
  else parseTokens (pySplitComma identifier) none none

/-- Exclusion-set construction of `get_recommendations` (lines 259-266):
each watched item's `_id` is parsed; a truthy IMDB id (`if imdb_id:`) joins
the IMDB exclusion set and a truthy TMDB id (`if tmdb_id:`, which rejects
both `None` and `0`) joins the TMDB exclusion set.  Python sets are
modelled as lists used only through membership. -/
def buildExclusion (watched : List LibraryItem) : List String × List Int :=
  watched.foldl
    (fun acc item =>
      let p := _parse_identifier item._id
      let imdbs := match p.1 with
        | some s => if s = "" then acc.1 else s :: acc.1
        | none => acc.1
      let tmdbs := match p.2 with
        | some n => if n = 0 then acc.2 else n :: acc.2
        | none => acc.2
      (imdbs, tmdbs))
    ([], [])

/-- Lexicographic comparison of character runs by code point, the order
Python uses to compare strings. -/
def lexLe : List Char → List Char → Bool
  | [], _ => true
  | _ :: _, [] => false
  | c :: cs, d :: ds =>
    if c.toNat < d.toNat then true
    else if d.toNat < c.toNat then false
    else lexLe cs ds

/-- Python's `<=` on strings: lexicographic by code point. -/
def pyStrLe (a b : String) : Bool := lexLe a.data b.data

/-- Rational `<=` as a boolean, standing for Python's numeric comparison. -/
def qLe (a b : ℚ) : Bool := decide (a ≤ b)

/-- Insert `a` into a list sorted non-increasingly by `key` under the
comparison `le`, before the first element whose key is `le`-below `key a`.
Together with `sortDescBy` this is the canonical stable descending sort,
extensionally equal to Python's `sorted(..., key=key, reverse=True)` /
`list.sort(key=key, reverse=True)` (any two stable sorts of the same list
under the same key agree). -/
def insertDescBy {α β : Type} (le : β → β → Bool) (key : α → β) (a : α) : List α → List α
  | [] => [a]
  | b :: l => if le (key b) (key a) then a :: b :: l else b :: insertDescBy le key a l

/-- Stable sort, non-increasing by `key` under the comparison `le`. -/
def sortDescBy {α β : Type} (le : β → β → Bool) (key : α → β) : List α → List α
  | [] => []
  | a :: l => insertDescBy le key a (sortDescBy le key l)

/-- Source-item selection of `get_recommendations` (lines 227-254): the
candidate pool is the watched list when `include_watched` is set, else the
loved list; an empty pool returns early with `[]`; the pool is filtered to
the requested content type (again returning `[]` when nothing remains),
stably sorted by `_mtime` descending (`sort(key=..., reverse=True)`), and
truncated to the first `source_items_limit` entries. -/
def selectSources (loved watched : List LibraryItem) (contentType : String)
    (limit : Nat) (includeWatched : Bool) : List LibraryItem :=
  let pool := if includeWatched then watched else loved
  if pool.isEmpty then []
  else
    let ofType := pool.filter (fun x => x.type == contentType)
    if ofType.isEmpty then []
    else (sortDescBy pyStrLe (fun x => x._mtime) ofType).take limit

/-- Flattening of the per-seed fetch results (`get_recommendations` lines
286-293): `asyncio.gather(..., return_exceptions=True)` yields one value
per seed, either an exception (modelled `Except.error`) that is logged and
skipped, or the seed's recommendation list whose items are appended in
order. -/
def flattenBatches : List (Except String (List RecItem)) → List RecItem
  | [] => []
  | Except.error _ :: rest => flattenBatches rest
  | Except.ok items :: rest => items ++ flattenBatches rest

/-- Pre-hydration dedupe and exclusion (`get_recommendations` lines
296-312): each flattened item is skipped when its TMDB id is falsy
(absent or `0`), already seen, or in the watched-TMDB exclusion set;
otherwise it is appended (and its id marked seen), and the loop breaks as
soon as `max_results * 2` items were kept.  `acc` holds the kept items in
reverse. -/
def filterByTmdb (watchedTmdb : List Int) (maxResults : Nat) :
    List RecItem → List Int → List RecItem → List RecItem
  | [], _, acc => acc.reverse
  | item :: rest, seen, acc =>
    match item.id with
    | none => filterByTmdb watchedTmdb maxResults rest seen acc
    | some tid =>
      if tid = 0 ∨ tid ∈ seen ∨ tid ∈ watchedTmdb then
        filterByTmdb watchedTmdb maxResults rest seen acc
      else
        let acc' := item :: acc
        if maxResults * 2 ≤ acc'.length then acc'.reverse
        else filterByTmdb watchedTmdb maxResults rest (tid :: seen) acc'

/-- Hydration of a single candidate by `_fetch_metadata_for_items`
(lines 75-127), with the TMDB detail service as oracle `details` (a `none`
models a failed or exception-raising lookup, which the Python logs and
skips).  An item with a falsy id is dropped by the `valid_items` filter;
the canonical id prefers a truthy `external_ids.imdb_id` and falls back to
`"tmdb:<details id>"`; the display name is `title or name`, and an entry
with no truthy title is dropped. -/
def hydrate1 (details : Int → Option Details) (mediaType : String) (item : RecItem) :
    Option Meta :=
  match item.id with
  | none => none
  | some tid =>
    if tid = 0 then none
    else
      match details tid with
      | none => none
      | some d =>
        let stremioId := match truthyStr d.imdb_id with
          | some i => i
          | none => "tmdb:" ++ toString d.id
        match truthyStr d.title with
        | some t => some { id := stremioId, type := mediaType, name := t, rating := d.vote_average }
        | none =>
          match truthyStr d.name with
          | some t => some { id := stremioId, type := mediaType, name := t, rating := d.vote_average }
          | none => none

/-- `_fetch_metadata_for_items` over a list: hydration results are
collected in order, dropped entries contributing nothing. -/
def hydrate (details : Int → Option Details) (mediaType : String)
    (items : List RecItem) : List Meta :=
  items.filterMap (hydrate1 details mediaType)

/-- The base score taken from an entry's rating: `float(meta["imdbRating"])`
with the `ValueError`/`TypeError` fallback to `0.0` (lines 326-329). -/
def ratingVal (m : Meta) : ℚ := m.rating.getD 0

/-- In-place score update of the entry with the given key, leaving key,
stored meta and position unchanged — Python dict value mutation
(`existing_recommendation["_score"] = ... + additional_score`, line 339). -/
def updateScore (k : String) (add : ℚ) : List (String × Scored) → List (String × Scored)
  | [] => []
  | (k', e) :: rest =>
    if k' = k then (k', { e with score := e.score + add }) :: rest
    else (k', e) :: updateScore k add rest

/-- Key-membership test on the insertion-ordered map
(`imdb_id not in unique_recommendations`, line 324). -/
def containsKey (k : String) (l : List (String × Scored)) : Bool :=
  l.any (fun p => p.1 == k)

/-- The merge loop of `get_recommendations` (lines 317-343): for each
hydrated entry the canonical key is `meta_data.get("imdb_id") or
meta_data.get("id")` — the meta dict carries no `"imdb_id"` key, so the
key is `meta["id"]`; a falsy key or a key in the watched-IMDB exclusion
set is skipped.  A new key is inserted with its own rating as base score;
an existing key has the occurrence's rating added to its running score.
After each processed entry the loop breaks once the map holds
`max_results` entries.  The map is an insertion-ordered association list. -/
def mergeLoop (watchedImdb : List String) (maxResults : Nat) :
    List Meta → List (String × Scored) → List (String × Scored)
  | [], acc => acc
  | m :: rest, acc =>
    let key := m.id
    if key = "" ∨ key ∈ watchedImdb then mergeLoop watchedImdb maxResults rest acc
    else
      let acc' :=
        if containsKey key acc then updateScore key (ratingVal m) acc
        else acc ++ [(key, ⟨m, ratingVal m⟩)]
      if maxResults ≤ acc'.length then acc' else mergeLoop watchedImdb maxResults rest acc'

/-- Steps 6-8 of `get_recommendations` up to (but excluding) the final
sort: flatten the per-seed batches, dedupe/exclude by TMDB id, hydrate,
and merge by canonical id.  The result is the insertion-ordered list of
scored entries (`unique_recommendations.values()`). -/
def mergedEntries (batches : List (Except String (List RecItem)))
    (watchedTmdb : List Int) (watchedImdb : List String) (maxResults : Nat)
    (details : Int → Option Details) (contentType : String) : List Scored :=
  let flat := flattenBatches batches
  let filtered := filterByTmdb watchedTmdb maxResults flat [] []
  let metas := hydrate details contentType filtered
  (mergeLoop watchedImdb maxResults metas []).map (fun p => p.2)

/-- Steps 6-9 of `get_recommendations` (lines 282-353): aggregation of the
per-seed fetch results followed by the stable sort on `_score` descending
(`sorted(..., key=..., reverse=True)`, lines 346-350). -/
def aggregateBatches (batches : List (Except String (List RecItem)))
    (watchedTmdb : List Int) (watchedImdb : List String) (maxResults : Nat)
    (details : Int → Option Details) (contentType : String) : List Scored :=
  sortDescBy qLe (fun e => e.score)
    (mergedEntries batches watchedTmdb watchedImdb maxResults details contentType)

/-- `get_recommendations` (`recommendation_service.py` lines 188-353) as a
pure function of the library contents and the upstream oracles.  A falsy
`content_type` returns `[]`; the source pool, type filter, recency sort
and truncation mirror lines 227-254; the exclusion sets are built from the
watched items; one recommendation fetch per source item is issued through
the oracle `fetchRecs` (standing for `_fetch_recommendations_from_tmdb`
applied to the item's `_id`, its `type` and `recommendations_per_source`,
with `Except.error` standing for a raised exception captured by
`asyncio.gather(..., return_exceptions=True)`); the batches are then
aggregated, merged and sorted.  The empty-pool and empty-filter early
returns coincide with aggregation over zero seeds, both yielding `[]`. -/
def get_recommendations (contentType : String) (sourceItemsLimit : Nat)
    (recommendationsPerSource : Nat) (maxResults : Nat) (includeWatched : Bool)
    (loved watched : List LibraryItem)
    (fetchRecs : String → String → Nat → Except String (List RecItem))
    (details : Int → Option Details) : List Scored :=
  if contentType = "" then []
  else
    let sources := selectSources loved watched contentType sourceItemsLimit includeWatched
    let exclusion := buildExclusion watched
    let batches := sources.map (fun s => fetchRecs s._id s.type recommendationsPerSource)
    aggregateBatches batches exclusion.2 exclusion.1 maxResults details contentType

/-! ### Lemmas about the comparisons -/

theorem lexLe_total : ∀ a b : List Char, lexLe a b = false → lexLe b a = true := by
  intro a
  induction a with
  | nil => intro b h; simp [lexLe] at h
  | cons c cs ih =>
    intro b h
    cases b with
    | nil => simp [lexLe]
    | cons d ds =>
      simp only [lexLe] at h ⊢
      split_ifs at h ⊢ <;> first | rfl | omega | exact ih ds h

theorem lexLe_trans :
    ∀ a b c : List Char, lexLe a b = true → lexLe b c = true → lexLe a c = true := by
  intro a
  induction a with
  | nil => intro b c _ _; rfl
  | cons x xs ih =>
    intro b c h1 h2
    cases b with
    | nil => simp [lexLe] at h1
    | cons y ys =>
      cases c with
      | nil => simp [lexLe] at h2
      | cons z zs =>
        simp only [lexLe] at h1 h2 ⊢
        split_ifs at h1 h2 ⊢ <;> first | rfl | omega | exact ih ys zs h1 h2

theorem pyStrLe_total (a b : String) : pyStrLe a b = false → pyStrLe b a = true :=
  lexLe_total a.data b.data

theorem pyStrLe_trans (a b c : String) :
    pyStrLe a b = true → pyStrLe b c = true → pyStrLe a c = true :=
  lexLe_trans a.data b.data c.data

theorem qLe_total (a b : ℚ) : qLe a b = false → qLe b a = true := by
  simp only [qLe, decide_eq_false_iff_not, decide_eq_true_eq]
  intro h
  exact le_of_not_le h

theorem qLe_trans (a b c : ℚ) : qLe a b = true → qLe b c = true → qLe a c = true := by
  simp only [qLe, decide_eq_true_eq]
  exact le_trans

/-! ### Lemmas about the stable descending sort -/

theorem length_insertDescBy {α β : Type} (le : β → β → Bool) (key : α → β) (a : α) :
    ∀ l : List α, (insertDescBy le key a l).length = l.length + 1 := by
  intro l
  induction l with
  | nil => rfl
  | cons b l ih =>
    simp only [insertDescBy]
    split_ifs <;> simp [ih]

theorem length_sortDescBy {α β : Type} (le : β → β → Bool) (key : α → β) :
    ∀ l : List α, (sortDescBy le key l).length = l.length := by
  intro l
  induction l with
  | nil => rfl
  | cons a l ih => simp [sortDescBy, length_insertDescBy, ih]

theorem perm_insertDescBy {α β : Type} (le : β → β → Bool) (key : α → β) (a : α) :
    ∀ l : List α, (insertDescBy le key a l).Perm (a :: l) := by
  intro l
  induction l with
  | nil => exact List.Perm.refl _
  | cons b l ih =>
    simp only [insertDescBy]
    split_ifs with h
    · exact List.Perm.refl _
    · exact (ih.cons b).trans (List.Perm.swap a b l)

theorem perm_sortDescBy {α β : Type} (le : β → β → Bool) (key : α → β) :
    ∀ l : List α, (sortDescBy le key l).Perm l := by
  intro l
  induction l with
  | nil => exact List.Perm.refl _
  | cons a l ih =>
    exact (perm_insertDescBy le key a (sortDescBy le key l)).trans (ih.cons a)

theorem mem_sortDescBy {α β : Type} (le : β → β → Bool) (key : α → β) (l : List α) (x : α) :
    x ∈ sortDescBy le key l ↔ x ∈ l :=
  (perm_sortDescBy le key l).mem_iff

theorem pairwise_insertDescBy {α β : Type} (le : β → β → Bool) (key : α → β)
    (htot : ∀ x y, le x y = false → le y x = true)
    (htrans : ∀ x y z, le x y = true → le y z = true → le x z = true) (a : α) :
    ∀ l : List α, l.Pairwise (fun u v => le (key v) (key u) = true) →
      (insertDescBy le key a l).Pairwise (fun u v => le (key v) (key u) = true) := by
  intro l
  induction l with
  | nil => intro _; simp [insertDescBy]
  | cons b l ih =>
    intro hp
    rcases List.pairwise_cons.mp hp with ⟨hb, hl⟩
    simp only [insertDescBy]
    split_ifs with h
    · refine List.pairwise_cons.mpr ⟨?_, hp⟩
      intro x hx
      rcases List.mem_cons.mp hx with hx | hx
      · subst hx; exact h
      · exact htrans (key x) (key b) (key a) (hb x hx) h
    · refine List.pairwise_cons.mpr ⟨?_, ih hl⟩
      intro x hx
      rcases List.mem_cons.mp ((perm_insertDescBy le key a l).mem_iff.mp hx) with hx | hx
      · subst hx
        exact htot (key b) (key x) (Bool.eq_false_iff.mpr h)
      · exact hb x hx

theorem pairwise_sortDescBy {α β : Type} (le : β → β → Bool) (key : α → β)
    (htot : ∀ x y, le x y = false → le y x = true)
    (htrans : ∀ x y z, le x y = true → le y z = true → le x z = true) :
    ∀ l : List α, (sortDescBy le key l).Pairwise (fun u v => le (key v) (key u) = true) := by
  intro l
  induction l with
  | nil => simp [sortDescBy]
  | cons a l ih => exact pairwise_insertDescBy le key htot htrans a _ ih

theorem filter_insertDescBy {α β : Type} (le : β → β → Bool) (key : α → β) (p : α → Bool)
    (hp : ∀ x y, p x = true → p y = true → le (key x) (key y) = true) (a : α) :
    ∀ l : List α,
      (insertDescBy le key a l).filter p =
        if p a then a :: l.filter p else l.filter p := by
  intro l
  induction l with
  | nil => simp [insertDescBy, List.filter_cons]
  | cons b l ih =>
    simp only [insertDescBy]
    by_cases h : le (key b) (key a) = true
    · rw [if_pos h, List.filter_cons]
    · rw [if_neg h, List.filter_cons]
      cases hpa : p a with
      | false => simp [List.filter_cons, ih, hpa]
      | true =>
        cases hpb : p b with
        | false => simp [List.filter_cons, ih, hpa, hpb]
        | true => exact absurd (hp b a hpb hpa) h

theorem filter_sortDescBy {α β : Type} (le : β → β → Bool) (key : α → β) (p : α → Bool)
    (hp : ∀ x y, p x = true → p y = true → le (key x) (key y) = true) :
    ∀ l : List α, (sortDescBy le key l).filter p = l.filter p := by
  intro l
  induction l with
  | nil => rfl
  | cons a l ih =>
    simp only [sortDescBy, filter_insertDescBy le key p hp, ih, List.filter_cons]

/-! ### Lemmas about flattening, pre-hydration filtering and merging -/

theorem flattenBatches_append :
    ∀ l1 l2 : List (Except String (List RecItem)),
      flattenBatches (l1 ++ l2) = flattenBatches l1 ++ flattenBatches l2 := by
  intro l1 l2
  induction l1 with
  | nil => rfl
  | cons b rest ih =>
    cases b with
    | error e => simpa [flattenBatches] using ih
    | ok items => simp [flattenBatches, ih]

theorem flattenBatches_error_middle (l1 l2 : List (Except String (List RecItem)))
    (msg : String) :
    flattenBatches (l1 ++ Except.error msg :: l2) = flattenBatches (l1 ++ l2) := by
  simp [flattenBatches_append, flattenBatches]

theorem flattenBatches_map_error {α : Type} (l : List α) (msg : String) :
    flattenBatches (l.map (fun _ => Except.error msg)) = [] := by
  induction l with
  | nil => rfl
  | cons a rest ih => simpa [flattenBatches] using ih

theorem flattenBatches_replicate_error (n : Nat) (msg : String) :
    flattenBatches (List.replicate n (Except.error msg)) = [] := by
  induction n with
  | zero => rfl
  | succ k ih => simpa [List.replicate, flattenBatches] using ih

theorem length_updateScore (k : String) (add : ℚ) :
    ∀ l : List (String × Scored), (updateScore k add l).length = l.length := by
  intro l
  induction l with
  | nil => rfl
  | cons p rest ih =>
    obtain ⟨k', e⟩ := p
    simp only [updateScore]
    split_ifs <;> simp [ih]

theorem map_fst_updateScore (k : String) (add : ℚ) :
    ∀ l : List (String × Scored), (updateScore k add l).map Prod.fst = l.map Prod.fst := by
  intro l
  induction l with
  | nil => rfl
  | cons p rest ih =>
    obtain ⟨k', e⟩ := p
    simp only [updateScore]
    split_ifs <;> simp [ih]

theorem mem_updateScore (k : String) (add : ℚ) :
    ∀ l : List (String × Scored), ∀ p ∈ updateScore k add l,
      ∃ q ∈ l, p.1 = q.1 ∧ p.2.meta = q.2.meta := by
  intro l
  induction l with
  | nil => intro p hp; simp [updateScore] at hp
  | cons q0 rest ih =>
    obtain ⟨k', e⟩ := q0
    intro p hp
    simp only [updateScore] at hp
    split_ifs at hp with hk
    · rcases List.mem_cons.mp hp with hp | hp
      · exact ⟨(k', e), List.mem_cons_self _ _, by simp [hp]⟩
      · exact ⟨p, List.mem_cons_of_mem _ hp, rfl, rfl⟩
    · rcases List.mem_cons.mp hp with hp | hp
      · exact ⟨(k', e), List.mem_cons_self _ _, by simp [hp]⟩
      · obtain ⟨q, hq, h1, h2⟩ := ih p hp
        exact ⟨q, List.mem_cons_of_mem _ hq, h1, h2⟩

theorem mergeLoop_length (wI : List String) (mr : Nat) :
    ∀ metas : List Meta, ∀ acc : List (String × Scored),
      acc.length < mr → (mergeLoop wI mr metas acc).length ≤ mr := by
  intro metas
  induction metas with
  | nil => intro acc h; simpa [mergeLoop] using Nat.le_of_lt h
  | cons m rest ih =>
    intro acc h
    simp only [mergeLoop]
    split_ifs with h1 h2 h3 h4
    · exact ih acc h
    · simpa [length_updateScore] using Nat.le_of_lt h
    · exact ih _ (by simpa [length_updateScore] using h)
    · simpa using h
    · exact ih _ (by omega)

theorem mergeLoop_inv (wI : List String) (mr : Nat) (f : String → Meta → Prop) :
    ∀ metas : List Meta, ∀ acc : List (String × Scored),
      (∀ q ∈ acc, f q.1 q.2.meta) →
      (∀ m ∈ metas, ¬(m.id = "" ∨ m.id ∈ wI) → f m.id m) →
      ∀ q ∈ mergeLoop wI mr metas acc, f q.1 q.2.meta := by
  intro metas
  induction metas with
  | nil => intro acc hacc _ q hq; exact hacc q (by simpa [mergeLoop] using hq)
  | cons m rest ih =>
    intro acc hacc hmetas q hq
    simp only [mergeLoop] at hq
    split_ifs at hq with h1 h2 h3 h4
    · exact ih acc hacc (fun x hx h => hmetas x (List.mem_cons_of_mem _ hx) h) q hq
    · obtain ⟨q', hq', e1, e2⟩ := mem_updateScore _ _ acc q hq
      rw [e1, e2]; exact hacc q' hq'
    · refine ih _ ?_ (fun x hx h => hmetas x (List.mem_cons_of_mem _ hx) h) q hq
      intro q' hq'
      obtain ⟨q'', hq'', e1, e2⟩ := mem_updateScore _ _ acc q' hq'
      rw [e1, e2]; exact hacc q'' hq''
    · rcases List.mem_append.mp hq with hq | hq
      · exact hacc q hq
      · rcases List.mem_singleton.mp hq with rfl
        exact hmetas m (List.mem_cons_self _ _) h1
    · refine ih _ ?_ (fun x hx h => hmetas x (List.mem_cons_of_mem _ hx) h) q hq
      intro q' hq'
      rcases List.mem_append.mp hq' with hq' | hq'
      · exact hacc q' hq'
      · rcases List.mem_singleton.mp hq' with rfl
        exact hmetas m (List.mem_cons_self _ _) h1

theorem not_mem_keys_of_containsKey_false (k : String) (acc : List (String × Scored))
    (h : containsKey k acc = false) : k ∉ acc.map Prod.fst := by
  intro hk
  obtain ⟨p, hp, hfst⟩ := List.mem_map.mp hk
  have := (List.any_eq_false).mp h p hp
  simp [hfst] at this

theorem mergeLoop_keys_nodup (wI : List String) (mr : Nat) :
    ∀ metas : List Meta, ∀ acc : List (String × Scored),
      (acc.map Prod.fst).Nodup → ((mergeLoop wI mr metas acc).map Prod.fst).Nodup := by
  intro metas
  induction metas with
  | nil => intro acc h; simpa [mergeLoop] using h
  | cons m rest ih =>
    intro acc h
    simp only [mergeLoop]
    split_ifs with h1 h2 h3 h4
    · exact ih acc h
    · simpa [map_fst_updateScore] using h
    · exact ih _ (by simpa [map_fst_updateScore] using h)
    · rw [List.map_append]
      simp only [List.map_cons, List.map_nil]
      refine List.Nodup.append h (List.nodup_singleton _) ?_
      intro x hx hx'
      rcases List.mem_singleton.mp hx' with rfl
      exact not_mem_keys_of_containsKey_false _ acc (Bool.eq_false_iff.mpr h2) hx
    · refine ih _ ?_
      rw [List.map_append]
      simp only [List.map_cons, List.map_nil]
      refine List.Nodup.append h (List.nodup_singleton _) ?_
      intro x hx hx'
      rcases List.mem_singleton.mp hx' with rfl
      exact not_mem_keys_of_containsKey_false _ acc (Bool.eq_false_iff.mpr h2) hx

theorem mem_filterByTmdb (wT : List Int) (mr : Nat) :
    ∀ items : List RecItem, ∀ seen : List Int, ∀ acc : List RecItem,
      ∀ x ∈ filterByTmdb wT mr items seen acc,
        x ∈ acc ∨ (x ∈ items ∧ ∃ t, x.id = some t ∧ t ≠ 0 ∧ t ∉ seen ∧ t ∉ wT) := by
  intro items
  induction items with
  | nil =>
    intro seen acc x hx
    exact Or.inl (List.mem_reverse.mp (by simpa [filterByTmdb] using hx))
  | cons item rest ih =>
    intro seen acc x hx
    simp only [filterByTmdb] at hx
    rcases hid : item.id with _ | tid
    · simp only [hid] at hx
      rcases ih seen acc x hx with h | ⟨h1, h2⟩
      · exact Or.inl h
      · exact Or.inr ⟨List.mem_cons_of_mem _ h1, h2⟩
    · simp only [hid] at hx
      split_ifs at hx with hskip hbreak
      · rcases ih seen acc x hx with h | ⟨h1, h2⟩
        · exact Or.inl h
        · exact Or.inr ⟨List.mem_cons_of_mem _ h1, h2⟩
      · push_neg at hskip
        rcases List.mem_cons.mp (List.mem_reverse.mp hx) with h | h
        · exact Or.inr ⟨by simp [h], tid, by simp [h, hid], hskip.1, hskip.2.1, hskip.2.2⟩
        · exact Or.inl h
      · push_neg at hskip
        rcases ih (tid :: seen) (item :: acc) x hx with h | ⟨h1, h2⟩
        · rcases List.mem_cons.mp h with h | h
          · exact Or.inr ⟨by simp [h], tid, by simp [h, hid], hskip.1, hskip.2.1, hskip.2.2⟩
          · exact Or.inl h
        · obtain ⟨t, ht1, ht2, ht3, ht4⟩ := h2
          exact Or.inr ⟨List.mem_cons_of_mem _ h1,
            t, ht1, ht2, fun hs => ht3 (List.mem_cons_of_mem _ hs), ht4⟩

/-- `get_recommendations` cut off just before the final sort: the
insertion-ordered merged entries of the run (the order of
`unique_recommendations.values()`). -/
def get_recommendations_unsorted (contentType : String) (sourceItemsLimit : Nat)
    (recommendationsPerSource : Nat) (maxResults : Nat) (includeWatched : Bool)
    (loved watched : List LibraryItem)
    (fetchRecs : String → String → Nat → Except String (List RecItem))
    (details : Int → Option Details) : List Scored :=
  if contentType = "" then []
  else
    let sources := selectSources loved watched contentType sourceItemsLimit includeWatched
    let exclusion := buildExclusion watched
    let batches := sources.map (fun s => fetchRecs s._id s.type recommendationsPerSource)
    mergedEntries batches exclusion.2 exclusion.1 maxResults details contentType

theorem get_recommendations_eq_sorted (contentType : String) (sourceItemsLimit : Nat)
    (recommendationsPerSource : Nat) (maxResults : Nat) (includeWatched : Bool)
    (loved watched : List LibraryItem)
    (fetchRecs : String → String → Nat → Except String (List RecItem))
    (details : Int → Option Details) :
    get_recommendations contentType sourceItemsLimit recommendationsPerSource maxResults
        includeWatched loved watched fetchRecs details =
      sortDescBy qLe (fun e => e.score)
        (get_recommendations_unsorted contentType sourceItemsLimit recommendationsPerSource
          maxResults includeWatched loved watched fetchRecs details) := by
  unfold get_recommendations get_recommendations_unsorted aggregateBatches
  split_ifs <;> rfl

theorem lexLe_refl : ∀ a : List Char, lexLe a a = true := by
  intro a
  induction a with
  | nil => rfl
  | cons c cs ih => simp [lexLe, ih]

theorem pyStrLe_refl (a : String) : pyStrLe a a = true := lexLe_refl a.data

theorem qLe_refl (a : ℚ) : qLe a a = true := by simp [qLe]

/-! ### Claims -/

/-- Claim C7: identifier resolution maps `"tt1000000,tmdb:55"` to
`imdbId = "tt1000000"` and `numericId = 55`; maps `"tmdb:55"` alone to
`numericId = 55` with the IMDB id null; maps `""` to both null; in a
comma-separated composite the first matching token of each kind wins; and
scanning stops once both kinds are found (tokens after that point are
never examined, so the result does not depend on them). -/
theorem c7_parse_identifier :
    _parse_identifier "tt1000000,tmdb:55" = (some "tt1000000", some 55)
    ∧ _parse_identifier "tmdb:55" = (none, some 55)
    ∧ _parse_identifier "" = (none, none)
    ∧ _parse_identifier "tt1,tt2,tmdb:5,tmdb:6" = (some "tt1", some 5)
    ∧ ∀ rest : List String,
        parseTokens ("tt1000000" :: "tmdb:55" :: rest) none none =
          (some "tt1000000", some 55) := by
  refine ⟨by decide, by decide, by decide, by decide, ?_⟩
  intro rest
  rfl

/-- Claim C5: when every per-seed upstream fetch raises (the fetch oracle
returns `Except.error` for every source item), `get_recommendations`
returns `[]` and no exception propagates; and more generally a failing
seed contributes zero candidates — removing an `Except.error` batch from
the gathered results leaves the flattened candidate list unchanged, so a
failed seed never aborts aggregation of the remaining seeds. -/
theorem c5_failed_seeds_isolated :
    (∀ (contentType : String) (sl rps mr : Nat) (iw : Bool)
        (loved watched : List LibraryItem) (details : Int → Option Details) (msg : String),
        get_recommendations contentType sl rps mr iw loved watched
          (fun _ _ _ => Except.error msg) details = [])
    ∧ (∀ (l1 l2 : List (Except String (List RecItem))) (msg : String),
        flattenBatches (l1 ++ Except.error msg :: l2) = flattenBatches (l1 ++ l2)) := by
  constructor
  · intro contentType sl rps mr iw loved watched details msg
    by_cases h : contentType = ""
    · simp [get_recommendations, h]
    · simp [get_recommendations, h, aggregateBatches, mergedEntries,
        flattenBatches_replicate_error, filterByTmdb, hydrate, mergeLoop, sortDescBy]
  · exact flattenBatches_error_middle

/-- Claim C5 witness: a concrete all-seeds-failing run (one loved movie,
every fetch erroring) returns the empty list. -/
theorem c5_witness :
    get_recommendations "movie" 10 5 50 false [⟨"tt1", "movie", "a"⟩] []
      (fun _ _ _ => Except.error "network error") (fun _ => none) = [] :=
  c5_failed_seeds_isolated.1 "movie" 10 5 50 false [⟨"tt1", "movie", "a"⟩] []
    (fun _ => none) "network error"

/-- Claim C6: with `include_watched = false` every selected source item
comes from the loved pool, with `include_watched = true` from the watched
pool; the chosen pool is filtered to the requested media type, stably
sorted by modification time descending (Python string comparison on
`_mtime`), and truncated to the source-items limit; an empty pool yields
an empty selection rather than an error.  The fourth conjunct is the full
characterization (filter, stable descending sort, truncate); the fifth
states stability: entries sharing an `_mtime` keep their original relative
order through the sort. -/
theorem c6_select_sources (loved watched : List LibraryItem) (contentType : String)
    (limit : Nat) (includeWatched : Bool) :
    (∀ x ∈ selectSources loved watched contentType limit includeWatched,
        x ∈ (if includeWatched then watched else loved) ∧ x.type = contentType)
    ∧ List.Pairwise (fun a b => pyStrLe b._mtime a._mtime = true)
        (selectSources loved watched contentType limit includeWatched)
    ∧ (selectSources loved watched contentType limit includeWatched).length ≤ limit
    ∧ selectSources loved watched contentType limit includeWatched =
        (sortDescBy pyStrLe (fun x => x._mtime)
          ((if includeWatched then watched else loved).filter
            (fun x => x.type == contentType))).take limit
    ∧ (∀ s : String,
        (sortDescBy pyStrLe (fun x => x._mtime)
            ((if includeWatched then watched else loved).filter
              (fun x => x.type == contentType))).filter (fun x => x._mtime == s) =
          ((if includeWatched then watched else loved).filter
            (fun x => x.type == contentType)).filter (fun x => x._mtime == s))
    ∧ ((if includeWatched then watched else loved) = [] →
        selectSources loved watched contentType limit includeWatched = []) := by
  have hchar : selectSources loved watched contentType limit includeWatched =
      (sortDescBy pyStrLe (fun x => x._mtime)
        ((if includeWatched then watched else loved).filter
          (fun x => x.type == contentType))).take limit := by
    unfold selectSources
    by_cases h1 : (if includeWatched then watched else loved).isEmpty
    · rw [if_pos h1, List.isEmpty_iff.mp h1]
      simp [sortDescBy]
    · rw [if_neg h1]
      by_cases h2 : ((if includeWatched then watched else loved).filter
          (fun x => x.type == contentType)).isEmpty
      · rw [if_pos h2, List.isEmpty_iff.mp h2]
        simp [sortDescBy]
      · rw [if_neg h2]
  refine ⟨?_, ?_, ?_, hchar, ?_, ?_⟩
  · intro x hx
    rw [hchar] at hx
    have hx2 := (mem_sortDescBy pyStrLe (fun x : LibraryItem => x._mtime) _ x).mp
      (List.take_subset _ _ hx)
    have := List.mem_filter.mp hx2
    exact ⟨this.1, by simpa using this.2⟩
  · rw [hchar]
    exact (pairwise_sortDescBy pyStrLe (fun x : LibraryItem => x._mtime) pyStrLe_total
      pyStrLe_trans _).sublist (List.take_sublist _ _)
  · rw [hchar]
    simp [List.length_take]
  · intro s
    refine filter_sortDescBy pyStrLe (fun x : LibraryItem => x._mtime)
      (fun x : LibraryItem => x._mtime == s) ?_ _
    intro x y hx hy
    have hx' : x._mtime = s := by simpa using hx
    have hy' : y._mtime = s := by simpa using hy
    show pyStrLe x._mtime y._mtime = true
    rw [hx', hy']
    exact pyStrLe_refl s
  · intro h
    rw [hchar, h]
    simp [sortDescBy]

/-- Claim C6 witness: on a concrete two-movie loved pool with
`includeWatched = false` and limit 1, the single selected source is the
most recently modified loved movie. -/
theorem c6_witness :
    (∀ x ∈ selectSources [⟨"tt1", "movie", "1"⟩, ⟨"tt2", "movie", "2"⟩] [] "movie" 1 false,
        x ∈ (if false then ([] : List LibraryItem)
             else [⟨"tt1", "movie", "1"⟩, ⟨"tt2", "movie", "2"⟩]) ∧ x.type = "movie")
    ∧ selectSources [⟨"tt1", "movie", "1"⟩, ⟨"tt2", "movie", "2"⟩] [] "movie" 1 false =
        [⟨"tt2", "movie", "2"⟩] :=
  ⟨(c6_select_sources [⟨"tt1", "movie", "1"⟩, ⟨"tt2", "movie", "2"⟩] [] "movie" 1 false).1,
    by decide⟩

/-- Claim C3: for every run (any library, any oracles — in particular any
non-empty source-item list) with a positive result budget,
`get_recommendations` returns at most `max_results` entries, the returned
list is sorted by relevance score in non-increasing order, and ties keep
their merge-insertion order (the sort is stable): for each score value the
entries carrying it appear in exactly the order the merge loop produced
them (`get_recommendations_unsorted`).  Positivity of `max_results` is
needed because the merge loop's early exit checks the map size only after
an insertion; every call site of `get_recommendations` passes
`max_results = 50`. -/
theorem c3_capped_sorted_stable (contentType : String) (sl rps mr : Nat) (iw : Bool)
    (loved watched : List LibraryItem)
    (fetchRecs : String → String → Nat → Except String (List RecItem))
    (details : Int → Option Details) (hmr : 0 < mr) :
    (get_recommendations contentType sl rps mr iw loved watched fetchRecs details).length ≤ mr
    ∧ List.Pairwise (fun a b => b.score ≤ a.score)
        (get_recommendations contentType sl rps mr iw loved watched fetchRecs details)
    ∧ ∀ s : ℚ,
        (get_recommendations contentType sl rps mr iw loved watched fetchRecs details).filter
            (fun e => e.score == s) =
          (get_recommendations_unsorted contentType sl rps mr iw loved watched fetchRecs
              details).filter (fun e => e.score == s) := by
  have hsort := get_recommendations_eq_sorted contentType sl rps mr iw loved watched
    fetchRecs details
  refine ⟨?_, ?_, ?_⟩
  · rw [hsort, length_sortDescBy]
    unfold get_recommendations_unsorted mergedEntries
    by_cases h : contentType = ""
    · simp [h]
    · simp only [if_neg h, List.length_map]
      exact mergeLoop_length _ mr _ [] (by simpa using hmr)
  · rw [hsort]
    have hp := pairwise_sortDescBy qLe (fun e : Scored => e.score) qLe_total qLe_trans
      (get_recommendations_unsorted contentType sl rps mr iw loved watched fetchRecs details)
    exact hp.imp (fun h => by simpa [qLe] using h)
  · intro s
    rw [hsort]
    refine filter_sortDescBy qLe (fun e : Scored => e.score)
      (fun e : Scored => e.score == s) ?_ _
    intro x y hx hy
    have hx' : x.score = s := by simpa using hx
    have hy' : y.score = s := by simpa using hy
    show qLe x.score y.score = true
    rw [hx', hy']
    exact qLe_refl s

/-- Claim C3 witness: the theorem applied to a concrete run with budget 50. -/
theorem c3_witness :
    0 < 50
    ∧ ((get_recommendations "movie" 2 5 50 false [⟨"tt1", "movie", "a"⟩] []
          (fun _ _ _ => Except.ok [⟨some 9⟩])
          (fun t => if t = 9 then some ⟨9, some "tt9", some "T", none, some 5⟩ else none)).length
          ≤ 50
        ∧ List.Pairwise (fun a b => b.score ≤ a.score)
            (get_recommendations "movie" 2 5 50 false [⟨"tt1", "movie", "a"⟩] []
              (fun _ _ _ => Except.ok [⟨some 9⟩])
              (fun t => if t = 9 then some ⟨9, some "tt9", some "T", none, some 5⟩ else none))
        ∧ ∀ s : ℚ,
            (get_recommendations "movie" 2 5 50 false [⟨"tt1", "movie", "a"⟩] []
                (fun _ _ _ => Except.ok [⟨some 9⟩])
                (fun t => if t = 9 then some ⟨9, some "tt9", some "T", none, some 5⟩
                  else none)).filter (fun e => e.score == s) =
              (get_recommendations_unsorted "movie" 2 5 50 false [⟨"tt1", "movie", "a"⟩] []
                  (fun _ _ _ => Except.ok [⟨some 9⟩])
                  (fun t => if t = 9 then some ⟨9, some "tt9", some "T", none, some 5⟩
                    else none)).filter (fun e => e.score == s)) :=
  ⟨by decide,
    c3_capped_sorted_stable "movie" 2 5 50 false [⟨"tt1", "movie", "a"⟩] []
      (fun _ _ _ => Except.ok [⟨some 9⟩])
      (fun t => if t = 9 then some ⟨9, some "tt9", some "T", none, some 5⟩ else none)
      (by decide)⟩

/-- Claim C4: a candidate whose canonical identifier is in the exclusion
set built from the watched items never appears in the output, no matter
how many seeds recommend it.  Every returned entry (i) has a canonical id
outside the watched-IMDB exclusion set, and (ii) was hydrated from a TMDB
numeric id outside the watched-TMDB exclusion set that occurred among the
flattened seed results — so a candidate excluded under either view of the
exclusion set contributes no output entry. -/
theorem c4_exclusion_respected (contentType : String) (sl rps mr : Nat) (iw : Bool)
    (loved watched : List LibraryItem)
    (fetchRecs : String → String → Nat → Except String (List RecItem))
    (details : Int → Option Details) :
    ∀ e ∈ get_recommendations contentType sl rps mr iw loved watched fetchRecs details,
      e.meta.id ∉ (buildExclusion watched).1
      ∧ ∃ t : Int, t ∉ (buildExclusion watched).2
          ∧ (⟨some t⟩ : RecItem) ∈ flattenBatches
              ((selectSources loved watched contentType sl iw).map
                (fun s => fetchRecs s._id s.type rps))
          ∧ hydrate1 details contentType ⟨some t⟩ = some e.meta := by
  intro e he
  by_cases hct : contentType = ""
  · simp [get_recommendations, hct] at he
  · simp only [get_recommendations, if_neg hct, aggregateBatches] at he
    have he2 := (mem_sortDescBy qLe (fun e : Scored => e.score) _ e).mp he
    simp only [mergedEntries] at he2
    obtain ⟨q, hq, hqe⟩ := List.mem_map.mp he2
    subst hqe
    have hf := mergeLoop_inv (buildExclusion watched).1 mr
      (fun k m => k = m.id ∧ k ∉ (buildExclusion watched).1
        ∧ ∃ t : Int, t ∉ (buildExclusion watched).2
            ∧ (⟨some t⟩ : RecItem) ∈ flattenBatches
                ((selectSources loved watched contentType sl iw).map
                  (fun s => fetchRecs s._id s.type rps))
            ∧ hydrate1 details contentType ⟨some t⟩ = some m)
      _ [] (by simp) ?_ q hq
    · obtain ⟨hkey, hnot, hex⟩ := hf
      exact ⟨hkey ▸ hnot, hex⟩
    intro m hm hskip
    push_neg at hskip
    refine ⟨rfl, hskip.2, ?_⟩
    obtain ⟨item, hitem, hhyd⟩ := List.mem_filterMap.mp hm
    rcases mem_filterByTmdb _ mr _ [] [] item hitem with h | ⟨hflat, t, hid, _, _, htw⟩
    · simp at h
    · obtain ⟨iid⟩ := item
      simp only at hid
      subst hid
      exact ⟨t, htw, hflat, hhyd⟩

/-- Claim C4 witness: a concrete run with watched item `"tt5,tmdb:3"`
(excluding IMDB id `tt5` and TMDB id 3) in which a seed recommends both
TMDB id 7 (kept, hydrating to `tt7`) and TMDB id 3 (excluded); the single
returned entry satisfies both exclusion conclusions. -/
theorem c4_witness :
    (⟨⟨"tt7", "movie", "T", some 5⟩, (5 : ℚ)⟩ : Scored).meta.id ∉
        (buildExclusion [⟨"tt5,tmdb:3", "movie", ""⟩]).1
    ∧ ∃ t : Int, t ∉ (buildExclusion [⟨"tt5,tmdb:3", "movie", ""⟩]).2
        ∧ (⟨some t⟩ : RecItem) ∈ flattenBatches
            ((selectSources [⟨"tt1", "movie", "a"⟩] [⟨"tt5,tmdb:3", "movie", ""⟩] "movie" 2
                false).map
              (fun s => (fun _ _ _ => Except.ok [⟨some 7⟩, ⟨some 3⟩] :
                String → String → Nat → Except String (List RecItem)) s._id s.type 5))
        ∧ hydrate1
            (fun t => if t = 7 then some ⟨7, some "tt7", some "T", none, some 5⟩ else none)
            "movie" ⟨some t⟩ = some (⟨⟨"tt7", "movie", "T", some 5⟩, (5 : ℚ)⟩ : Scored).meta :=
  c4_exclusion_respected "movie" 2 5 50 false [⟨"tt1", "movie", "a"⟩]
    [⟨"tt5,tmdb:3", "movie", ""⟩]
    (fun _ _ _ => Except.ok [⟨some 7⟩, ⟨some 3⟩])
    (fun t => if t = 7 then some ⟨7, some "tt7", some "T", none, some 5⟩ else none)
    ⟨⟨"tt7", "movie", "T", some 5⟩, (5 : ℚ)⟩ (by decide)

theorem merged_ids_nodup (wI : List String) (mr : Nat) (metas : List Meta) :
    ((mergeLoop wI mr metas []).map (fun q => q.2.meta.id)).Nodup := by
  have h1 := mergeLoop_keys_nodup wI mr metas [] (by simp)
  have h2 := mergeLoop_inv wI mr (fun k m => k = m.id) metas [] (by simp)
    (fun m _ _ => rfl)
  have heq : (mergeLoop wI mr metas []).map (fun q => q.2.meta.id) =
      (mergeLoop wI mr metas []).map Prod.fst :=
    List.map_congr_left (fun q hq => (h2 q hq).symm)
  rw [heq]
  exact h1

/-- Claim C1 counterexample: the claim fails as stated.  Two distinct
seeds (`tt1`, `tt2`, both loved movies) each recommend the same title,
TMDB id 9, whose rating is 5; the claim demands a final score of
`5 + 5 = 10` (the sum of the per-seed contributions), but the
pre-hydration dedupe by TMDB id drops the second occurrence before the
scoring merge ever sees it, so the title's score is 5. -/
theorem c1_counterexample :
    (get_recommendations "movie" 2 5 50 false
        [⟨"tt1", "movie", "b"⟩, ⟨"tt2", "movie", "a"⟩] []
        (fun _ _ _ => Except.ok [⟨some 9⟩])
        (fun t => if t = 9 then some ⟨9, some "tt9", some "T", none, some 5⟩
          else none)).map (fun e => e.score) = [5]
    ∧ ¬ ((get_recommendations "movie" 2 5 50 false
        [⟨"tt1", "movie", "b"⟩, ⟨"tt2", "movie", "a"⟩] []
        (fun _ _ _ => Except.ok [⟨some 9⟩])
        (fun t => if t = 9 then some ⟨9, some "tt9", some "T", none, some 5⟩
          else none)).map (fun e => e.score) = [10]) := by
  constructor
  · decide
  · decide

/-- Claim C1 as amended: a title recommended by two distinct seeds appears
at most once in the output (canonical ids of the output are pairwise
distinct — first conjunct, fully general); score accumulation across seeds
happens only when the two occurrences carry distinct TMDB numeric ids that
hydrate to the same canonical id, in which case the single output entry's
score is the sum of the occurrences' own ratings (second conjunct: ratings
5 and 6 yield one entry scored `5 + 6 = 11`); when both seeds report the same TMDB
numeric id, the pre-hydration dedupe keeps only the first occurrence and
the score is that occurrence's rating alone (third conjunct).  The per-seed
contribution is always the candidate's own rating, not a seed-dependent
value. -/
theorem c1_amended :
    (∀ (contentType : String) (sl rps mr : Nat) (iw : Bool)
        (loved watched : List LibraryItem)
        (fetchRecs : String → String → Nat → Except String (List RecItem))
        (details : Int → Option Details),
        ((get_recommendations contentType sl rps mr iw loved watched fetchRecs details).map
          (fun e => e.meta.id)).Nodup)
    ∧ get_recommendations "movie" 2 5 50 false
        [⟨"tt1", "movie", "b"⟩, ⟨"tt2", "movie", "a"⟩] []
        (fun i _ _ => if i = "tt1" then Except.ok [⟨some 101⟩] else Except.ok [⟨some 102⟩])
        (fun t =>
          if t = 101 then some ⟨101, some "tt9", some "T", none, some 5⟩
          else if t = 102 then some ⟨102, some "tt9", some "T", none, some 6⟩
          else none) = [⟨⟨"tt9", "movie", "T", some 5⟩, 5 + 6⟩]
    ∧ (get_recommendations "movie" 2 5 50 false
        [⟨"tt1", "movie", "b"⟩, ⟨"tt2", "movie", "a"⟩] []
        (fun _ _ _ => Except.ok [⟨some 9⟩])
        (fun t => if t = 9 then some ⟨9, some "tt9", some "T", none, some 5⟩
          else none)).map (fun e => e.score) = [5] := by
  refine ⟨?_, by rfl, by decide⟩
  intro contentType sl rps mr iw loved watched fetchRecs details
  rw [get_recommendations_eq_sorted]
  have hperm := (perm_sortDescBy qLe (fun e : Scored => e.score)
    (get_recommendations_unsorted contentType sl rps mr iw loved watched fetchRecs
      details)).map (fun e : Scored => e.meta.id)
  refine hperm.nodup_iff.mpr ?_
  unfold get_recommendations_unsorted mergedEntries
  by_cases h : contentType = ""
  · simp [h]
  · simp only [if_neg h, List.map_map]
    exact merged_ids_nodup _ mr _

/-- Claim C2 counterexample: the claim fails as stated.  With
`max_results = 2` and five qualifying distinct candidates arriving from
seed processing with ratings 1..5, the run returns the entries scored
`[2, 1]` — the first two qualifying entries in aggregation order — not the
two highest-scoring entries `[5, 4]`: the merge loop breaks as soon as two
entries are inserted, before the higher-scored candidates are processed
(and the pre-hydration cap `max_results * 2` already cut the list to four). -/
theorem c2_counterexample :
    (get_recommendations "movie" 2 5 2 false [⟨"tt1", "movie", "a"⟩] []
        (fun _ _ _ =>
          Except.ok [⟨some 1⟩, ⟨some 2⟩, ⟨some 3⟩, ⟨some 4⟩, ⟨some 5⟩])
        (fun t =>
          if t = 1 then some ⟨1, none, some "T", none, some 1⟩
          else if t = 2 then some ⟨2, none, some "T", none, some 2⟩
          else if t = 3 then some ⟨3, none, some "T", none, some 3⟩
          else if t = 4 then some ⟨4, none, some "T", none, some 4⟩
          else if t = 5 then some ⟨5, none, some "T", none, some 5⟩
          else none)).map (fun e => e.score) = [2, 1]
    ∧ ¬ ((get_recommendations "movie" 2 5 2 false [⟨"tt1", "movie", "a"⟩] []
        (fun _ _ _ =>
          Except.ok [⟨some 1⟩, ⟨some 2⟩, ⟨some 3⟩, ⟨some 4⟩, ⟨some 5⟩])
        (fun t =>
          if t = 1 then some ⟨1, none, some "T", none, some 1⟩
          else if t = 2 then some ⟨2, none, some "T", none, some 2⟩
          else if t = 3 then some ⟨3, none, some "T", none, some 3⟩
          else if t = 4 then some ⟨4, none, some "T", none, some 4⟩
          else if t = 5 then some ⟨5, none, some "T", none, some 5⟩
          else none)).map (fun e => e.score) = [5, 4]) := by
  constructor
  · decide
  · decide

/-- Claim C2 as amended: with `max_results = 2` and five qualifying
distinct entries arriving from seed processing, exactly 2 entries are
returned; they are the first 2 qualifying entries in aggregation order
(the merge loop stops inserting once the map reaches `max_results`),
sorted by score among themselves — not necessarily the 2 entries with the
highest relevance scores. -/
theorem c2_amended :
    get_recommendations "movie" 2 5 2 false [⟨"tt1", "movie", "a"⟩] []
        (fun _ _ _ =>
          Except.ok [⟨some 1⟩, ⟨some 2⟩, ⟨some 3⟩, ⟨some 4⟩, ⟨some 5⟩])
        (fun t =>
          if t = 1 then some ⟨1, none, some "T", none, some 1⟩
          else if t = 2 then some ⟨2, none, some "T", none, some 2⟩
          else if t = 3 then some ⟨3, none, some "T", none, some 3⟩
          else if t = 4 then some ⟨4, none, some "T", none, some 4⟩
          else if t = 5 then some ⟨5, none, some "T", none, some 5⟩
          else none) =
      [⟨⟨"tmdb:2", "movie", "T", some 2⟩, 2⟩, ⟨⟨"tmdb:1", "movie", "T", some 1⟩, 1⟩]
    ∧ (get_recommendations "movie" 2 5 2 false [⟨"tt1", "movie", "a"⟩] []
        (fun _ _ _ =>
          Except.ok [⟨some 1⟩, ⟨some 2⟩, ⟨some 3⟩, ⟨some 4⟩, ⟨some 5⟩])
        (fun t =>
          if t = 1 then some ⟨1, none, some "T", none, some 1⟩
          else if t = 2 then some ⟨2, none, some "T", none, some 2⟩
          else if t = 3 then some ⟨3, none, some "T", none, some 3⟩
          else if t = 4 then some ⟨4, none, some "T", none, some 4⟩
          else if t = 5 then some ⟨5, none, some "T", none, some 5⟩
          else none)).length = 2 := by
  constructor
  · decide
  · decide

/-! ### The memoizing cache (`tmdb_service.py`) -/

/-- Modelled from the spec: the bounded memoizing cache of §4.5.  In the
code every TMDB lookup is wrapped by the external `async_lru.alru_cache`
decorator (`tmdb_service.py`: `find_by_imdb_id` with `maxsize=2000`,
`get_movie_details` / `get_tv_details` with `maxsize=5000`,
`get_recommendations` / `get_similar` / `get_discover` with
`maxsize=1000`); the decorator's implementation is library code outside
the repository, so its LRU memoization policy is modelled here: a bounded
lookup table from argument tuple to cached value, kept in
most-recently-used-first order.  The decorators pass no TTL, so entries
never expire before eviction; a repeated identical call inside any time
window — in particular a TTL window — is a cache hit. -/
structure LruCache (κ ν : Type) where
  maxsize : Nat
  entries : List (κ × ν)
deriving DecidableEq

/-- Cache lookup by key (first match in recency order). -/
def lruLookup {κ ν : Type} [DecidableEq κ] (k : κ) : List (κ × ν) → Option ν
  | [] => none
  | (k', v) :: rest => if k' = k then some v else lruLookup k rest

/-- Remove a key's entry (used to refresh recency on a hit). -/
def lruRemove {κ ν : Type} [DecidableEq κ] (k : κ) (l : List (κ × ν)) : List (κ × ν) :=
  l.filter (fun p => decide (p.1 ≠ k))

/-- One memoized call: a hit returns the cached value without invoking
`compute` and moves the entry to the front; a miss invokes `compute`,
stores the result at the front and evicts beyond `maxsize`.  The third
component counts the invocations of the underlying compute function made
by this call (0 or 1). -/
def cachedCall {κ ν : Type} [DecidableEq κ] (c : LruCache κ ν) (compute : κ → ν) (k : κ) :
    ν × LruCache κ ν × Nat :=
  match lruLookup k c.entries with
  | some v => (v, { c with entries := (k, v) :: lruRemove k c.entries }, 0)
  | none =>
    let v := compute k
    (v, { c with entries := ((k, v) :: c.entries).take c.maxsize }, 1)

/-- Claim C8: for a memoized upstream lookup, two calls with identical
arguments (within the TTL window — entries never expire here, so any
window qualifies) invoke the underlying compute function exactly once:
starting from any cache state of positive capacity in which the key is
not yet cached, the first call computes (count 1), the second call is a
hit that computes nothing (count 0) and returns the first call's value;
the two calls together invoke `compute` exactly once. -/
theorem c8_cache_idempotent {κ ν : Type} [DecidableEq κ] (c : LruCache κ ν)
    (compute : κ → ν) (k : κ) (hsize : 0 < c.maxsize)
    (hmiss : lruLookup k c.entries = none) :
    (cachedCall c compute k).2.2 = 1
    ∧ (cachedCall (cachedCall c compute k).2.1 compute k).2.2 = 0
    ∧ (cachedCall (cachedCall c compute k).2.1 compute k).1 = (cachedCall c compute k).1
    ∧ (cachedCall c compute k).2.2 +
        (cachedCall (cachedCall c compute k).2.1 compute k).2.2 = 1 := by
  obtain ⟨m, hm⟩ : ∃ m, c.maxsize = m + 1 := ⟨c.maxsize - 1, by omega⟩
  simp [cachedCall, hmiss, hm, List.take, lruLookup]

/-- Claim C8 witness: a concrete fresh cache of capacity 2000 over natural
keys; the two-call sequence computes exactly once. -/
theorem c8_witness :
    0 < (⟨2000, []⟩ : LruCache Nat Nat).maxsize
    ∧ lruLookup 7 (⟨2000, []⟩ : LruCache Nat Nat).entries = none
    ∧ (cachedCall (⟨2000, []⟩ : LruCache Nat Nat) (fun n => n * n) 7).2.2 = 1
    ∧ (cachedCall (cachedCall (⟨2000, []⟩ : LruCache Nat Nat) (fun n => n * n) 7).2.1
        (fun n => n * n) 7).2.2 = 0 :=
  ⟨by decide, by decide,
    (c8_cache_idempotent (⟨2000, []⟩ : LruCache Nat Nat) (fun n => n * n) 7
      (by decide) (by decide)).1,
    (c8_cache_idempotent (⟨2000, []⟩ : LruCache Nat Nat) (fun n => n * n) 7
      (by decide) (by decide)).2.1⟩

/-! ### The background catalog updater (`catalog_updater.py`) -/

/-- Phase of the background loop `BackgroundCatalogUpdater._run`
(`catalog_updater.py` lines 85-99): `checking` is the top of the
`while not self._stop_event.is_set()` loop, `refreshing` is inside
`refresh_all_tokens()`, `waiting` is inside
`asyncio.wait_for(self._stop_event.wait(), timeout=interval)`, and `done`
means the loop has exited. -/
inductive LoopPhase
  | checking
  | refreshing
  | waiting
  | done
deriving DecidableEq

/-- One cooperative step of the loop, parameterized by whether the stop
event is currently set: at `checking` the loop exits when the event is
set, else runs a refresh pass; after refreshing it waits; the wait always
returns to the check (either preempted by the event being set or by the
timeout); `done` is terminal. -/
def loopStep (stopSet : Bool) : LoopPhase → LoopPhase
  | .checking => if stopSet then .done else .refreshing
  | .refreshing => .waiting
  | .waiting => .checking
  | .done => .done

/-- Time spent inside `asyncio.wait_for(self._stop_event.wait(),
timeout=interval)`: the wait returns as soon as the stop event is set
(`signalAt = some t`, the event is set `t` time units into the wait) and
at the timeout otherwise. -/
def waitElapsed (signalAt : Option Nat) (interval : Nat) : Nat :=
  match signalAt with
  | some t => min t interval
  | none => interval

/-- State of a `BackgroundCatalogUpdater` (`catalog_updater.py` lines
41-60): the optional background task (`self._task`) with its current loop
phase, the stop event (`self._stop_event`), and — to make "no second
loop is ever spawned" an invariant rather than a typing accident — the
number of spawned-and-not-yet-terminated loop tasks. -/
structure UpdaterState where
  task : Option LoopPhase
  stopEvent : Bool
  live : Nat
deriving DecidableEq

/-- `BackgroundCatalogUpdater.start` (lines 49-53): a no-op when a task
already exists; otherwise clears the stop event and spawns the loop task
at its first stop-check. -/
def UpdaterState.start (s : UpdaterState) : UpdaterState :=
  match s.task with
  | some _ => s
  | none => ⟨some .checking, false, s.live + 1⟩

/-- `BackgroundCatalogUpdater.stop` (lines 55-60): a no-op when no task
exists; otherwise sets the stop event, awaits the loop task — which
terminates, see the C9 theorem — and clears the task slot. -/
def UpdaterState.stop (s : UpdaterState) : UpdaterState :=
  match s.task with
  | none => s
  | some _ => ⟨none, true, s.live - 1⟩

/-- Claim C9: once the stop event is set, the loop reaches `done` within
three cooperative steps from any phase (finish the current refresh, have
the wait preempted, fail the check) — so `stop()`'s `await self._task`
returns and no background work survives it: after `stop` the task slot is
empty.  The wait between refresh passes is preempted by the stop signal:
if the signal arrives `t < interval` into the wait, the wait lasts `t`,
strictly less than the full interval (and only an unsignalled wait lasts
the full interval). -/
theorem c9_stop_terminates_loop :
    (∀ p : LoopPhase, loopStep true (loopStep true (loopStep true p)) = .done)
    ∧ (∀ t i : Nat, t < i → waitElapsed (some t) i = t ∧ waitElapsed (some t) i < i)
    ∧ (∀ i : Nat, waitElapsed none i = i)
    ∧ (∀ s : UpdaterState, s.stop.task = none) := by
  refine ⟨?_, ?_, ?_, ?_⟩
  · intro p; cases p <;> rfl
  · intro t i h
    constructor
    · simp [waitElapsed, Nat.min_eq_left (Nat.le_of_lt h)]
    · simp only [waitElapsed]
      omega
  · intro i; rfl
  · intro s
    rcases hs : s.task with _ | p <;> simp [UpdaterState.stop, hs]

/-- Claim C9 witness: a loop in the middle of a refresh pass whose stop
event is set reaches `done` in three steps; a stop signal 3 units into a
60-unit wait ends the wait after 3 units; stopping a running updater
leaves no task. -/
theorem c9_witness :
    loopStep true (loopStep true (loopStep true LoopPhase.refreshing)) = LoopPhase.done
    ∧ (3 < 60 ∧ waitElapsed (some 3) 60 = 3 ∧ waitElapsed (some 3) 60 < 60)
    ∧ (⟨some LoopPhase.waiting, false, 1⟩ : UpdaterState).stop.task = none :=
  ⟨c9_stop_terminates_loop.1 LoopPhase.refreshing,
    ⟨by decide, c9_stop_terminates_loop.2.1 3 60 (by decide)⟩,
    c9_stop_terminates_loop.2.2.2 ⟨some LoopPhase.waiting, false, 1⟩⟩

/-- An external call to the updater's lifecycle methods. -/
inductive UpdaterOp
  | start
  | stop
deriving DecidableEq

/-- Apply one lifecycle call. -/
def applyUpdaterOp (s : UpdaterState) : UpdaterOp → UpdaterState
  | .start => s.start
  | .stop => s.stop

/-- Run a sequence of lifecycle calls from the freshly constructed
updater (`__init__`, lines 44-47: no task, stop event unset). -/
def runUpdaterOps (ops : List UpdaterOp) : UpdaterState :=
  ops.foldl applyUpdaterOp ⟨none, false, 0⟩

/-- The single-task invariant: at most one live background loop, and a
loop is live exactly when the task slot is occupied. -/
def UpdaterInv (s : UpdaterState) : Prop :=
  s.live ≤ 1 ∧ (s.task.isSome ↔ s.live = 1)

theorem applyUpdaterOp_inv (s : UpdaterState) (op : UpdaterOp) :
    UpdaterInv s → UpdaterInv (applyUpdaterOp s op) := by
  intro h
  obtain ⟨h1, h2⟩ := h
  cases op with
  | start =>
    rcases hs : s.task with _ | p
    · have : s.live = 0 := by
        rcases Nat.lt_or_ge s.live 1 with h | h
        · omega
        · exact absurd (h2.mpr (by omega)) (by simp [hs])
      simp [applyUpdaterOp, UpdaterState.start, hs, UpdaterInv, this]
    · simpa [applyUpdaterOp, UpdaterState.start, hs] using ⟨h1, h2⟩
  | stop =>
    rcases hs : s.task with _ | p
    · simpa [applyUpdaterOp, UpdaterState.stop, hs] using ⟨h1, h2⟩
    · have : s.live = 1 := h2.mp (by simp [hs])
      simp [applyUpdaterOp, UpdaterState.stop, hs, UpdaterInv, this]

theorem foldl_updater_inv :
    ∀ (ops : List UpdaterOp) (s : UpdaterState),
      UpdaterInv s → UpdaterInv (ops.foldl applyUpdaterOp s) := by
  intro ops
  induction ops with
  | nil => intro s h; exact h
  | cons op rest ih => intro s h; exact ih _ (applyUpdaterOp_inv s op h)

/-- Claim C10: the updater holds at most one background loop task at any
time.  `start()` on a state that already has a task is a no-op and spawns
no second loop (the state, including the live-loop count, is unchanged);
every state reachable from the fresh updater by any sequence of
`start`/`stop` calls satisfies the single-task invariant; and after
`stop()` completes, a subsequent `start()` begins a fresh loop with the
stop flag cleared (the new task is at its first stop-check and the stop
event is unset, because `start` clears it before spawning). -/
theorem c10_single_task :
    (∀ (s : UpdaterState) (p : LoopPhase), s.task = some p → s.start = s)
    ∧ (∀ ops : List UpdaterOp, UpdaterInv (runUpdaterOps ops))
    ∧ (∀ s : UpdaterState,
        s.stop.start.task = some LoopPhase.checking ∧ s.stop.start.stopEvent = false) := by
  refine ⟨?_, ?_, ?_⟩
  · intro s p h
    simp [UpdaterState.start, h]
  · intro ops
    exact foldl_updater_inv ops _ ⟨by simp, by simp⟩
  · intro s
    rcases hs : s.task with _ | p <;>
      simp [UpdaterState.stop, UpdaterState.start, hs]

/-- Claim C10 witness: starting an updater that already runs a loop
changes nothing; the state after `start; stop; start` satisfies the
single-task invariant; `stop` then `start` yields a running task with the
stop flag cleared. -/
theorem c10_witness :
    (⟨some LoopPhase.checking, false, 1⟩ : UpdaterState).start =
        ⟨some LoopPhase.checking, false, 1⟩
    ∧ UpdaterInv (runUpdaterOps [UpdaterOp.start, UpdaterOp.stop, UpdaterOp.start])
    ∧ (⟨some LoopPhase.waiting, false, 1⟩ : UpdaterState).stop.start.task =
        some LoopPhase.checking
    ∧ (⟨some LoopPhase.waiting, false, 1⟩ : UpdaterState).stop.start.stopEvent = false :=
  ⟨c10_single_task.1 ⟨some LoopPhase.checking, false, 1⟩ LoopPhase.checking rfl,
    c10_single_task.2.1 [UpdaterOp.start, UpdaterOp.stop, UpdaterOp.start],
    (c10_single_task.2.2 ⟨some LoopPhase.waiting, false, 1⟩).1,
    (c10_single_task.2.2 ⟨some LoopPhase.waiting, false, 1⟩).2⟩
